import Mathlib

set_option maxRecDepth 100000

/-!
Verification of the fricu HTTP key-value server (C sources under src/server).

The wire data is modelled as `List Char`, one `Char` per byte. The C code
manipulates NUL-terminated strings, so the view of a buffer that `strstr`,
`sscanf`, `strncmp` and `atoi` see is `cstr buf`, the longest NUL-free
prefix. The SQLite store is modelled as an association list from key bytes
to value bytes; the three prepared statements (fetch, upsert, json-validate)
become a lookup, a primary-key upsert and an abstract predicate parameter.
The `updated_at` column and SQLite step failures (which yield 500 in the C
code) are outside the model: the modelled worker is one whose statements
prepared successfully and whose store steps succeed.
-/

/-- Hard ceiling on a request, `REQ_BUF_SIZE` in server_internal.h. -/
def REQ_BUF_SIZE : Nat := 65536

/-- Initial connection buffer capacity, `CONN_INIT_BUF` in server_internal.h. -/
def CONN_INIT_BUF : Nat := 8192

/-- Default worker count, `DEFAULT_WORKERS` in server_internal.h. -/
def DEFAULT_WORKERS : Nat := 64

/-- Bytes on the wire: one `Char` per byte. -/
abbrev Bytes := List Char

/-- The NUL byte. -/
def nulC : Char := Char.ofNat 0

/-- C-string view of a byte buffer: everything before the first NUL. -/
def cstr (l : Bytes) : Bytes := l.takeWhile (fun c => c ≠ nulC)

/-- C `isspace` in the default locale: space, tab, newline, vertical tab,
form feed, carriage return. -/
def isSpaceC (c : Char) : Bool :=
  c = ' ' ∨ c = '\t' ∨ c = '\n' ∨ c = Char.ofNat 11 ∨ c = Char.ofNat 12 ∨ c = '\r'

/-- ASCII lower-casing, as C `tolower` in the default locale. -/
def asciiLower (c : Char) : Char :=
  if 'A' ≤ c ∧ c ≤ 'Z' then Char.ofNat (c.toNat + 32) else c

/-- The header terminator searched for by `try_process_client`. -/
def CRLFCRLF : Bytes := ['\r', '\n', '\r', '\n']

/-- A line terminator. -/
def CRLF : Bytes := ['\r', '\n']

/-- Index of the first occurrence of `pat` in `s`, as C `strstr` (on the
C-string views). -/
def strstrIdx (s pat : Bytes) : Option Nat :=
  if pat.isPrefixOf s then some 0
  else
    match s with
    | [] => none
    | _ :: t => (strstrIdx t pat).map (fun i => i + 1)

/-- One `%Ns` conversion of C `sscanf`: skip whitespace, fail at end of
input, otherwise read at most `maxLen` non-whitespace characters; the
unread remainder of the token stays in the input. -/
def scanTok (maxLen : Nat) (l : Bytes) : Option (Bytes × Bytes) :=
  let l1 := l.dropWhile isSpaceC
  if l1.isEmpty then none
  else
    let tok := (l1.takeWhile (fun c => ¬ isSpaceC c)).take maxLen
    some (tok, l1.drop tok.length)

/-- The request-line scan `sscanf(buf, "%7s %511s", method, path)` of
`try_process_client`: `none` when fewer than two tokens are found
(`sscanf` result differs from 2). -/
def parseRequestLine (l : Bytes) : Option (Bytes × Bytes) :=
  match scanTok 7 l with
  | none => none
  | some (m, rest) =>
    match scanTok 511 rest with
    | none => none
    | some (p, _) => some (m, p)

/-- Value of a leading run of decimal digits, the digit-accumulation part
of C `atoi`. -/
def digitsVal (l : Bytes) : Nat :=
  (l.takeWhile Char.isDigit).foldl (fun a c => a * 10 + (c.toNat - 48)) 0

/-- C `atoi`: skip whitespace, optional sign, leading digits. Overflow is
undefined behaviour in C and is modelled as exact integer arithmetic. -/
def atoiC (l : Bytes) : Int :=
  let t := l.dropWhile isSpaceC
  match t with
  | '-' :: r => - (digitsVal r : Int)
  | '+' :: r => (digitsVal r : Int)
  | _ => (digitsVal t : Int)

/-- Header-line loop of `read_content_length` (util.c): `li` is the index
of the current line, `headerEnd` the index of the first CRLFCRLF. The
line index advances by at least 2 per iteration and the loop runs only
while `li < headerEnd`, so any fuel of at least `headerEnd - li` makes
the fuel bound unreachable (`rclLoop_fuel_congr` below); fuel keeps the
recursion structural so that it evaluates in the kernel. -/
def rclLoop (s : Bytes) (headerEnd : Nat) : Nat → Nat → Int
  | 0, _ => 0
  | fuel + 1, li =>
    if li < headerEnd then
      match strstrIdx (s.drop li) CRLF with
      | none => 0
      | some j =>
        if li + j > headerEnd then 0
        else if 15 ≤ j ∧ ((s.drop li).take 15).map asciiLower = "content-length:".data then
          atoiC (s.drop (li + 15))
        else rclLoop s headerEnd fuel (li + j + 2)
    else 0

/-- Model of `read_content_length` (util.c lines 38-53): scan the header
lines between the request line and `headerEnd` for a case-insensitive
`Content-Length:` line; its `atoi` value, or 0 when no such line exists. -/
def read_content_length (s : Bytes) (headerEnd : Nat) : Int :=
  match strstrIdx s CRLF with
  | none => 0
  | some i => rclLoop s headerEnd (headerEnd + 1) (i + 2)

/-- The fixed key vocabulary `DATA_KEYS` (util.c lines 12-21). -/
def DATA_KEYS : List String :=
  ["activities", "activity_metric_insights", "meal_plans", "custom_foods",
   "workouts", "events", "profile", "lactate_history_records"]

/-- Model of `is_valid_key` (util.c lines 24-29): linear scan of the fixed
vocabulary with `strcmp`. -/
def is_valid_key (key : Bytes) : Bool :=
  DATA_KEYS.any (fun k => k.data == key)

/-- The kv_store table, keyed by `data_key`; `updated_at` is not modelled. -/
abbrev Store := List (Bytes × Bytes)

/-- Fetch-by-key prepared statement: first row whose key matches. -/
def lookupStore (st : Store) (k : Bytes) : Option Bytes :=
  match st with
  | [] => none
  | (k1, v) :: t => if k1 = k then some v else lookupStore t k

/-- Upsert-by-key prepared statement: insert, or overwrite on primary-key
conflict. -/
def upsertStore (st : Store) (k v : Bytes) : Store :=
  match st with
  | [] => [(k, v)]
  | (k1, v1) :: t => if k1 = k then (k, v) :: t else (k1, v1) :: upsertStore t k v

/-- An HTTP response as assembled by `send_response`: status code, reason
string, body bytes. -/
structure Response where
  code : Nat
  status : String
  body : Bytes
deriving DecidableEq

/-- Per-key default JSON used by `handle_get_data` when the row is absent. -/
def defaultJson (key : Bytes) : Bytes :=
  if key = "profile".data then "\x7b\x7d".data else "[]".data

/-- Model of `handle_get_data` (http.c lines 65-83) on a worker whose
statements prepared successfully: fetch the row, reply 200 with the stored
value, or with the key default when the row is absent. -/
def handle_get_data (st : Store) (key : Bytes) : Response :=
  match lookupStore st key with
  | some v => ⟨200, "OK", v⟩
  | none => ⟨200, "OK", defaultJson key⟩

/-- Model of `handle_put_data` (http.c lines 85-107): validate the payload
with the store's JSON predicate `jv`; on failure 400 without touching the
store, on success upsert and 204 with empty body. -/
def handle_put_data (jv : Bytes → Bool) (st : Store) (key payload : Bytes) :
    Response × Store :=
  if jv payload then
    (⟨204, "No Content", []⟩, upsertStore st key payload)
  else
    (⟨400, "Bad Request", "\x7b\"error\":\"invalid json payload\"\x7d".data⟩, st)

/-- Result of `try_process_client`: 0 means need more data (no response
sent, buffer kept); 1 means done, with the response written and the store
state after the request. -/
inductive ParseResult where
  | needMore : ParseResult
  | done : Response → Store → ParseResult
deriving DecidableEq

/-- C `size_t` subtraction, modulo 2^64. -/
def sub64 (a b : Nat) : Nat := ((((a : Int) - (b : Int)) % (2 ^ 64 : Int))).toNat

/-- Model of `try_process_client` (http.c lines 109-162). The buffer is
null-terminated at the current length, so the parsing functions see
`cstr buf`; the body-completeness check uses the raw length `buf.length`
(`conn->len`), and the payload handed to `handle_put_data` is the C string
starting at the body offset, as after `body[content_length] = 0`. -/
def try_process_client (jv : Bytes → Bool) (st : Store) (buf : Bytes) : ParseResult :=
  let s := cstr buf
  match strstrIdx s CRLFCRLF with
  | none => .needMore
  | some he =>
    let header_len := he + 4
    match parseRequestLine s with
    | none => .done ⟨400, "Bad Request", "\x7b\"error\":\"malformed request line\"\x7d".data⟩ st
    | some (m, p) =>
      if p = "/health".data ∧ m = "GET".data then
        .done ⟨200, "OK", "\x7b\"status\":\"ok\"\x7d".data⟩ st
      else if ¬ ("/v1/data/".data.isPrefixOf p) then
        .done ⟨404, "Not Found", "\x7b\"error\":\"not found\"\x7d".data⟩ st
      else
        let key := p.drop 9
        if ¬ is_valid_key key then
          .done ⟨404, "Not Found", "\x7b\"error\":\"unknown key\"\x7d".data⟩ st
        else if m = "GET".data then
          .done (handle_get_data st key) st
        else if m = "PUT".data then
          let cl := read_content_length s he
          if cl < 0 ∨ cl.toNat > sub64 REQ_BUF_SIZE header_len then
            .done ⟨400, "Bad Request", "\x7b\"error\":\"invalid content length\"\x7d".data⟩ st
          else if cl.toNat > sub64 buf.length header_len then
            .needMore
          else
            let payload := cstr ((buf.drop header_len).take cl.toNat)
            let pr := handle_put_data jv st key payload
            .done pr.1 pr.2
        else
          .done ⟨405, "Method Not Allowed", "\x7b\"error\":\"method not allowed\"\x7d".data⟩ st

/-- Decimal digits of `n`, most significant first, accumulated onto `acc`;
the digit-emission loop of `snprintf` for an unsigned value. -/
def natDecimalAux : Nat → List Char → List Char
  | 0, acc => acc
  | n + 1, acc => natDecimalAux ((n + 1) / 10) (Char.ofNat (48 + (n + 1) % 10) :: acc)
decreasing_by exact Nat.div_lt_self (Nat.succ_pos n) (by norm_num)

/-- Decimal rendering of a Nat, as `snprintf` `%zu` or a non-negative `%d`. -/
def natDecimal (n : Nat) : List Char :=
  if n = 0 then ['0'] else natDecimalAux n []

/-- Model of `send_response` (http.c lines 33-52): the bytes written to the
socket, header then body. The 2 KiB header buffer cannot overflow for the
status lines the server uses, and `send_all` failures drop bytes silently
on a closing connection; neither is modelled. -/
def send_response (code : Nat) (status : String) (body : Bytes) : Bytes :=
  "HTTP/1.1 ".data ++ natDecimal code ++ [' '] ++ status.data ++ CRLF
    ++ "Content-Type: application/json".data ++ CRLF
    ++ "Content-Length: ".data ++ natDecimal body.length ++ CRLF
    ++ "Connection: close".data ++ CRLF ++ CRLF
    ++ body

/-- Per-connection state (conn_t): the buffered bytes (`buf`/`len`, with
`len = buf.length`), the capacity `cap`, and the byte count actually
allocated for the buffer (`malloc`/`realloc` argument). -/
structure ConnSt where
  buf : Bytes
  cap : Nat
  alloc : Nat
deriving DecidableEq

/-- A freshly accepted connection (event_loop.c lines 172-184):
`calloc` zeroes `len`, capacity starts at `CONN_INIT_BUF`, and
`cap + 1` bytes are allocated. -/
def connInit : ConnSt := ⟨[], CONN_INIT_BUF, CONN_INIT_BUF + 1⟩

/-- Buffer growth step (event_loop.c lines 206-217): when the buffer is
full and below the ceiling, double the capacity, capping at
`REQ_BUF_SIZE`, and reallocate `cap + 1` bytes. -/
def growIfFull (c : ConnSt) : ConnSt :=
  if c.buf.length = c.cap ∧ c.cap < REQ_BUF_SIZE then
    let next := if c.cap * 2 > REQ_BUF_SIZE then REQ_BUF_SIZE else c.cap * 2
    ⟨c.buf, next, next + 1⟩
  else c

/-- Append from `recv` (event_loop.c lines 219-221): the kernel delivers at
most `cap - len` bytes of the pending `chunk` and the length advances by
the amount received. -/
def recvAppend (c : ConnSt) (chunk : Bytes) : ConnSt :=
  ⟨c.buf ++ chunk.take (c.cap - c.buf.length), c.cap, c.alloc⟩

/-- Connection states reachable in a worker: creation, then any number of
grow-if-full/append-from-recv iterations of the read loop. -/
inductive ConnReach : ConnSt → Prop where
  | init : ConnReach connInit
  | step (c : ConnSt) (chunk : Bytes) : ConnReach c →
      ConnReach (recvAppend (growIfFull c) chunk)

/-- The buffer invariant of claim C8: length at most capacity, capacity at
most the 64 KiB ceiling and always one of the doubling sequence from
8 KiB, allocation exactly capacity + 1, so the index `len` used for the
terminating NUL write stays inside the allocation. -/
def connInv (c : ConnSt) : Prop :=
  c.buf.length ≤ c.cap ∧ c.cap ≤ REQ_BUF_SIZE ∧ c.alloc = c.cap + 1 ∧
    (c.cap = 8192 ∨ c.cap = 16384 ∨ c.cap = 32768 ∨ c.cap = 65536) ∧
    c.buf.length < c.alloc

/-- The 413 response of the read loop (event_loop.c line 223). -/
def resp413 : Response :=
  ⟨413, "Payload Too Large", "\x7b\"error\":\"request too large\"\x7d".data⟩

/-- Outcome of one successful-read iteration of the worker loop: the
connection stays registered with its buffer intact, or it is closed,
possibly after writing a response. -/
inductive StepOut where
  | cont : ConnSt → Store → StepOut
  | closed : Option Response → Store → StepOut
deriving DecidableEq

/-- Model of one `r > 0` iteration of the client read loop
(event_loop.c lines 205-233): grow if full, append the received bytes,
reply 413 and close when the length reaches the ceiling, otherwise run the
parser; done closes with its response, need-more keeps the connection.
The `r = 0`, would-block and error paths close or suspend without a
response and are not needed here. -/
def workerStep (jv : Bytes → Bool) (st : Store) (c : ConnSt) (chunk : Bytes) : StepOut :=
  let c1 := recvAppend (growIfFull c) chunk
  if c1.buf.length ≥ REQ_BUF_SIZE then .closed (some resp413) st
  else
    match try_process_client jv st c1.buf with
    | .needMore => .cont c1 st
    | .done r st1 => .closed (some r) st1

/-- Model of the worker-count resolution in `main` (main.c lines 542-543):
`FRICU_SERVER_WORKERS` parsed with `strtoul` when set, else the default;
a value of 0 or above 1024 is replaced by the default. -/
def resolve_worker_count (cfg : Option Nat) : Nat :=
  let w := match cfg with | none => DEFAULT_WORKERS | some v => v
  if w = 0 ∨ w > 1024 then DEFAULT_WORKERS else w

/-- A found occurrence is a real occurrence: the pattern is a prefix of the
suffix at the returned index, which lies within the string. -/
theorem strstrIdx_bound (s pat : Bytes) (i : Nat) (h : strstrIdx s pat = some i) :
    pat.isPrefixOf (s.drop i) = true ∧ i + pat.length ≤ s.length := by
  induction s generalizing i with
  | nil =>
    unfold strstrIdx at h
    split at h
    · rename_i hp
      cases pat with
      | nil => cases h; simp
      | cons a t => simp [List.isPrefixOf] at hp
    · simp at h
  | cons a t ih =>
    unfold strstrIdx at h
    split at h
    · rename_i hp
      cases h
      refine ⟨by simpa using hp, ?_⟩
      have := List.IsPrefix.length_le (List.isPrefixOf_iff_prefix.mp hp)
      simpa using this
    · dsimp only at h
      cases hx : strstrIdx t pat with
      | none => rw [hx] at h; simp at h
      | some j =>
        rw [hx] at h
        simp at h
        obtain ⟨hpre, hlen⟩ := ih j hx
        subst h
        refine ⟨by simpa using hpre, by simp; omega⟩

/-- Fuel irrelevance for the header-line loop: any fuel at least
`headerEnd - li` gives the same result, since each iteration advances the
line index by at least 2 and runs only while `li < headerEnd`. -/
theorem rclLoop_fuel_congr (s : Bytes) (headerEnd : Nat) :
    ∀ f1 f2 li, headerEnd - li ≤ f1 → headerEnd - li ≤ f2 →
      rclLoop s headerEnd f1 li = rclLoop s headerEnd f2 li := by
  intro f1
  induction f1 generalizing s with
  | zero =>
    intro f2 li h1 h2
    have hle : ¬ li < headerEnd := by omega
    cases f2 with
    | zero => rfl
    | succ f => simp [rclLoop, hle]
  | succ f ih =>
    intro f2 li h1 h2
    by_cases hlt : li < headerEnd
    · cases f2 with
      | zero => omega
      | succ g =>
        simp only [rclLoop, hlt, if_true]
        cases hx : strstrIdx (s.drop li) CRLF with
        | none => rfl
        | some j =>
          by_cases hj : li + j > headerEnd
          · simp [hj]
          · simp only [hj, if_false]
            by_cases hcl : 15 ≤ j ∧ ((s.drop li).take 15).map asciiLower = "content-length:".data
            · simp [hcl]
            · simp only [hcl, if_false]
              exact ih _ _ _ (by omega) (by omega)
    · cases f2 with
      | zero => simp [rclLoop, hlt]
      | succ g => simp [rclLoop, hlt]

/-- Reading a key back after an upsert of that key yields the new value. -/
theorem lookup_upsert (st : Store) (k v : Bytes) :
    lookupStore (upsertStore st k v) k = some v := by
  induction st with
  | nil => simp [upsertStore, lookupStore]
  | cons hd t ih =>
    obtain ⟨k1, v1⟩ := hd
    by_cases hk : k1 = k
    · simp [upsertStore, hk, lookupStore]
    · simp [upsertStore, hk, lookupStore, ih]

/-- Upserting one key leaves every other key unchanged. -/
theorem lookup_upsert_ne (st : Store) (k k2 v : Bytes) (h : k2 ≠ k) :
    lookupStore (upsertStore st k v) k2 = lookupStore st k2 := by
  induction st with
  | nil =>
    have hne : k ≠ k2 := fun hh => h hh.symm
    simp [upsertStore, lookupStore, hne]
  | cons hd t ih =>
    obtain ⟨k1, v1⟩ := hd
    by_cases hk : k1 = k
    · subst hk
      have hne : k1 ≠ k2 := fun hh => h hh.symm
      simp [upsertStore, lookupStore, hne]
    · simp [upsertStore, hk, lookupStore, ih]

/-- Modelled `size_t` subtraction agrees with Nat subtraction when it does
not underflow and the minuend fits. -/
theorem sub64_eq (a b : Nat) (hba : b ≤ a) (ha : a < 18446744073709551616) :
    sub64 a b = a - b := by
  unfold sub64
  have h2 : (2 : Int) ^ 64 = 18446744073709551616 := by norm_num
  rw [h2]
  omega

/-- The digit-emission loop produces the base-10 digits of `n`, most
significant first, in front of the accumulator. -/
theorem natDecimalAux_digits :
    ∀ (n : Nat) (acc : List Char),
      natDecimalAux n acc
        = ((Nat.digits 10 n).map (fun d => Char.ofNat (48 + d))).reverse ++ acc := by
  intro n
  induction n using Nat.strong_induction_on with
  | _ n ih =>
    match n with
    | 0 => intro acc; simp [natDecimalAux]
    | m + 1 =>
      intro acc
      rw [natDecimalAux]
      rw [ih ((m + 1) / 10) (Nat.div_lt_self (Nat.succ_pos m) (by norm_num))]
      rw [Nat.digits_def' (by norm_num : (1 : ℕ) < 10) (Nat.succ_pos m)]
      simp [List.reverse_cons, List.append_assoc]

/-- A digit below 10 renders as an ASCII digit character. -/
theorem digitChar_isDigit (d : Nat) (h : d < 10) :
    (Char.ofNat (48 + d)).isDigit = true := by
  interval_cases d <;> decide

/-- Code point of a rendered digit character. -/
theorem digitChar_toNat (d : Nat) (h : d < 10) :
    (Char.ofNat (48 + d)).toNat = 48 + d := by
  interval_cases d <;> decide

/-- Folding the decimal fold over rendered digits (most significant first)
recovers the positional value. -/
theorem foldl_digits (l : List Nat) (hl : ∀ d ∈ l, d < 10) :
    ∀ a : Nat,
      ((l.map (fun d => Char.ofNat (48 + d))).reverse).foldl
          (fun a c => a * 10 + (c.toNat - 48)) a
        = a * 10 ^ l.length + Nat.ofDigits 10 l := by
  induction l with
  | nil => intro a; simp
  | cons d t ih =>
    intro a
    have hd : d < 10 := hl d (by simp)
    have ht : ∀ x ∈ t, x < 10 := fun x hx => hl x (by simp [hx])
    simp only [List.map_cons, List.reverse_cons, List.foldl_append]
    rw [ih ht a]
    simp only [List.foldl_cons, List.foldl_nil, digitChar_toNat d hd]
    rw [Nat.ofDigits_cons]
    have hdd : 48 + d - 48 = d := by omega
    rw [hdd]
    simp only [List.length_cons, pow_succ]
    ring

/-- Every character that `natDecimal` emits is an ASCII digit. -/
theorem natDecimal_all_digits (n : Nat) :
    ∀ c ∈ natDecimal n, c.isDigit = true := by
  intro c hc
  by_cases hn : n = 0
  · subst hn; simp [natDecimal] at hc; subst hc; decide
  · unfold natDecimal at hc
    rw [if_neg hn, natDecimalAux_digits] at hc
    simp only [List.append_nil, List.mem_reverse, List.mem_map] at hc
    obtain ⟨d, hd, rfl⟩ := hc
    exact digitChar_isDigit d (Nat.digits_lt_base (by norm_num) hd)

/-- The decimal value printed into the `Content-Length` header parses back
to the byte count it was printed from. -/
theorem digitsVal_natDecimal (n : Nat) : digitsVal (natDecimal n) = n := by
  by_cases hn : n = 0
  · subst hn; decide
  · unfold digitsVal
    rw [List.takeWhile_eq_self_iff.mpr (by simpa using natDecimal_all_digits n)]
    unfold natDecimal
    rw [if_neg hn, natDecimalAux_digits]
    rw [List.append_nil]
    rw [foldl_digits _ (fun d hd => Nat.digits_lt_base (by norm_num) hd) 0]
    simp [Nat.ofDigits_digits]

/-- Growth preserves the buffer invariant: capacity only doubles along the
8 KiB → 64 KiB ladder and the allocation tracks capacity + 1. -/
theorem connInv_growIfFull (c : ConnSt) (h : connInv c) : connInv (growIfFull c) := by
  obtain ⟨h1, h2, h3, h4, h5⟩ := h
  unfold connInv growIfFull REQ_BUF_SIZE at *
  split
  · rename_i hg
    rcases h4 with h4 | h4 | h4 | h4 <;>
      simp only [h4] at hg ⊢ <;>
      first
      | omega
      | (norm_num; omega)
  · exact ⟨h1, h2, h3, h4, h5⟩

/-- Appending at most the free space preserves the buffer invariant. -/
theorem connInv_recvAppend (c : ConnSt) (chunk : Bytes) (h : connInv c) :
    connInv (recvAppend c chunk) := by
  obtain ⟨h1, h2, h3, h4, h5⟩ := h
  unfold connInv recvAppend at *
  simp only [List.length_append, List.length_take]
  omega

/-- The C-string view of a buffer is never longer than the buffer. -/
theorem cstr_length_le (buf : Bytes) : (cstr buf).length ≤ buf.length :=
  (List.takeWhile_prefix _).length_le

/-- A successful scan returns a token no longer than the conversion width. -/
theorem scanTok_length_le (maxLen : Nat) (l tok rest : Bytes)
    (h : scanTok maxLen l = some (tok, rest)) : tok.length ≤ maxLen := by
  unfold scanTok at h
  dsimp only at h
  split at h
  · simp at h
  · simp only [Option.some.injEq, Prod.mk.injEq] at h
    rw [← h.1]
    exact List.length_take_le maxLen _

/-- Routing of a PUT for a vocabulary key: the header terminator is at `he`,
the request line scans as PUT with target `/v1/data/K`, and `K` is valid;
`try_process_client` then reaches the Content-Length checks. This and the
two lemmas after it each fix one outcome of those checks. -/
theorem tpc_put_invalid_cl (jv : Bytes → Bool) (st : Store) (buf : Bytes)
    (he : Nat) (K : Bytes)
    (hterm : strstrIdx (cstr buf) CRLFCRLF = some he)
    (hline : parseRequestLine (cstr buf) = some ("PUT".data, "/v1/data/".data ++ K))
    (hkey : is_valid_key K = true)
    (hbad : read_content_length (cstr buf) he < 0 ∨
      (read_content_length (cstr buf) he).toNat > sub64 REQ_BUF_SIZE (he + 4)) :
    try_process_client jv st buf
      = .done ⟨400, "Bad Request", "\x7b\"error\":\"invalid content length\"\x7d".data⟩ st := by
  have hng : ¬ ("/v1/data/".data ++ K = "/health".data ∧ "PUT".data = "GET".data) :=
    fun hx => absurd hx.2 (by decide)
  have hpre : "/v1/data/".data.isPrefixOf ("/v1/data/".data ++ K) = true :=
    List.isPrefixOf_iff_prefix.mpr (List.prefix_append _ _)
  have h9 : ("/v1/data/".data).length = 9 := by decide
  have hdrop : ("/v1/data/".data ++ K).drop 9 = K := by rw [← h9, List.drop_left]
  unfold try_process_client
  simp only [hterm]
  simp only [hline]
  rw [if_neg hng, if_neg (not_not_intro hpre), hdrop, if_neg (not_not_intro hkey),
    if_neg (by decide : ¬ ("PUT".data = "GET".data)), if_pos trivial, if_pos hbad]

/-- PUT routing, second outcome: the Content-Length is acceptable but fewer
bytes than the announced body length are buffered after the terminator, so
the parser asks for more data. -/
theorem tpc_put_incomplete (jv : Bytes → Bool) (st : Store) (buf : Bytes)
    (he : Nat) (K : Bytes)
    (hterm : strstrIdx (cstr buf) CRLFCRLF = some he)
    (hline : parseRequestLine (cstr buf) = some ("PUT".data, "/v1/data/".data ++ K))
    (hkey : is_valid_key K = true)
    (hok : ¬ (read_content_length (cstr buf) he < 0 ∨
      (read_content_length (cstr buf) he).toNat > sub64 REQ_BUF_SIZE (he + 4)))
    (hlt : (read_content_length (cstr buf) he).toNat > sub64 buf.length (he + 4)) :
    try_process_client jv st buf = .needMore := by
  have hng : ¬ ("/v1/data/".data ++ K = "/health".data ∧ "PUT".data = "GET".data) :=
    fun hx => absurd hx.2 (by decide)
  have hpre : "/v1/data/".data.isPrefixOf ("/v1/data/".data ++ K) = true :=
    List.isPrefixOf_iff_prefix.mpr (List.prefix_append _ _)
  have h9 : ("/v1/data/".data).length = 9 := by decide
  have hdrop : ("/v1/data/".data ++ K).drop 9 = K := by rw [← h9, List.drop_left]
  unfold try_process_client
  simp only [hterm]
  simp only [hline]
  rw [if_neg hng, if_neg (not_not_intro hpre), hdrop, if_neg (not_not_intro hkey),
    if_neg (by decide : ¬ ("PUT".data = "GET".data)), if_pos trivial, if_neg hok, if_pos hlt]

/-- PUT routing, third outcome: the Content-Length is acceptable and the
body is fully buffered; the handler runs on the C string starting at the
body offset, NUL-terminated at exactly the announced length. -/
theorem tpc_put_complete (jv : Bytes → Bool) (st : Store) (buf : Bytes)
    (he : Nat) (K : Bytes)
    (hterm : strstrIdx (cstr buf) CRLFCRLF = some he)
    (hline : parseRequestLine (cstr buf) = some ("PUT".data, "/v1/data/".data ++ K))
    (hkey : is_valid_key K = true)
    (hok : ¬ (read_content_length (cstr buf) he < 0 ∨
      (read_content_length (cstr buf) he).toNat > sub64 REQ_BUF_SIZE (he + 4)))
    (hge : ¬ ((read_content_length (cstr buf) he).toNat > sub64 buf.length (he + 4))) :
    try_process_client jv st buf
      = .done (handle_put_data jv st K
          (cstr ((buf.drop (he + 4)).take (read_content_length (cstr buf) he).toNat))).1
        (handle_put_data jv st K
          (cstr ((buf.drop (he + 4)).take (read_content_length (cstr buf) he).toNat))).2 := by
  have hng : ¬ ("/v1/data/".data ++ K = "/health".data ∧ "PUT".data = "GET".data) :=
    fun hx => absurd hx.2 (by decide)
  have hpre : "/v1/data/".data.isPrefixOf ("/v1/data/".data ++ K) = true :=
    List.isPrefixOf_iff_prefix.mpr (List.prefix_append _ _)
  have h9 : ("/v1/data/".data).length = 9 := by decide
  have hdrop : ("/v1/data/".data ++ K).drop 9 = K := by rw [← h9, List.drop_left]
  unfold try_process_client
  simp only [hterm]
  simp only [hline]
  rw [if_neg hng, if_neg (not_not_intro hpre), hdrop, if_neg (not_not_intro hkey),
    if_neg (by decide : ¬ ("PUT".data = "GET".data)), if_pos trivial, if_neg hok, if_neg hge]

/-- C1: for every key K in the fixed vocabulary and every payload V accepted
by the store's JSON-validity predicate, the PUT handler answers 204 and
upserts (K, V), and a following GET of K answers 200 with body exactly V,
byte for byte. -/
theorem C1_put_then_get_roundtrip (jv : Bytes → Bool) (st : Store) (K V : Bytes)
    (_hK : is_valid_key K = true) (hV : jv V = true) :
    handle_put_data jv st K V = (⟨204, "No Content", []⟩, upsertStore st K V) ∧
    handle_get_data (upsertStore st K V) K = ⟨200, "OK", V⟩ := by
  constructor
  · simp [handle_put_data, hV]
  · simp [handle_get_data, lookup_upsert]

/-- Witness for C1 at key `activities` and body `[]`. -/
theorem C1_witness :
    is_valid_key "activities".data = true ∧
    (fun b => b == "[]".data) "[]".data = true ∧
    handle_put_data (fun b => b == "[]".data) [] "activities".data "[]".data
      = (⟨204, "No Content", []⟩, upsertStore [] "activities".data "[]".data) ∧
    handle_get_data (upsertStore [] "activities".data "[]".data) "activities".data
      = ⟨200, "OK", "[]".data⟩ := by
  refine ⟨by decide, by decide, ?_, ?_⟩
  · exact (C1_put_then_get_roundtrip (fun b => b == "[]".data) [] "activities".data
      "[]".data (by decide) (by decide)).1
  · exact (C1_put_then_get_roundtrip (fun b => b == "[]".data) [] "activities".data
      "[]".data (by decide) (by decide)).2

/-- C7: every response written by the response writer is the status line
followed by exactly the headers Content-Type: application/json,
Content-Length and Connection: close, a blank line, then the body, and the
Content-Length value parses back to the byte count of that body. -/
theorem C7_response_framing (code : Nat) (status : String) (body : Bytes) :
    send_response code status body
      = ("HTTP/1.1 ".data ++ natDecimal code ++ [' '] ++ status.data ++ CRLF)
        ++ ("Content-Type: application/json".data ++ CRLF)
        ++ ("Content-Length: ".data ++ natDecimal body.length ++ CRLF)
        ++ ("Connection: close".data ++ CRLF)
        ++ CRLF ++ body
    ∧ digitsVal (natDecimal body.length) = body.length := by
  constructor
  · simp [send_response, List.append_assoc]
  · exact digitsVal_natDecimal body.length

/-- C8: every connection state reachable through creation, growth and
append-from-recv satisfies length at most capacity at most 64 KiB, capacity
on the doubling ladder from 8 KiB, and allocation capacity + 1, so the NUL
write at index length stays inside the allocation. -/
theorem C8_buffer_invariant (c : ConnSt) (h : ConnReach c) : connInv c := by
  induction h with
  | init => norm_num [connInv, connInit, CONN_INIT_BUF, REQ_BUF_SIZE]
  | step c chunk hc ih => exact connInv_recvAppend _ _ (connInv_growIfFull _ ih)

/-- Witness for C8 at the initial connection state. -/
theorem C8_witness : connInv connInit :=
  C8_buffer_invariant connInit ConnReach.init

/-- C9 as stated is false: the configured value 2000 is out of range, and
the code replaces it by the default 64, not by the nearest bound 1024. -/
theorem C9_counterexample :
    resolve_worker_count (some 2000) = 64 ∧ resolve_worker_count (some 2000) ≠ 1024 := by
  decide

/-- C9 (amended): the worker count defaults to 64; the spawned count always
lies in the range 1 to 1024; a configured value of 0 or above 1024 is
replaced by the default 64 rather than by the nearest bound. -/
theorem C9_worker_count_resolution :
    (∀ cfg : Option Nat, 1 ≤ resolve_worker_count cfg ∧ resolve_worker_count cfg ≤ 1024) ∧
    resolve_worker_count none = DEFAULT_WORKERS ∧
    (∀ w : Nat, resolve_worker_count (some w)
      = if w = 0 ∨ w > 1024 then DEFAULT_WORKERS else w) := by
  refine ⟨?_, rfl, fun w => rfl⟩
  intro cfg
  cases cfg with
  | none => decide
  | some w =>
    unfold resolve_worker_count DEFAULT_WORKERS
    dsimp only
    split
    · decide
    · rename_i hw
      push_neg at hw
      omega

example : try_process_client (fun _ => true) []
    "GET /health HTTP/1.1\r\nHost: x\r\n\r\n".data
    = .done ⟨200, "OK", "\x7b\"status\":\"ok\"\x7d".data⟩ [] := by decide

example : try_process_client (fun _ => true) []
    "GET /v1/data/unknown HTTP/1.1\r\nHost: x\r\n\r\n".data
    = .done ⟨404, "Not Found", "\x7b\"error\":\"unknown key\"\x7d".data⟩ [] := by decide

example : try_process_client (fun _ => false) []
    "PUT /v1/data/activities HTTP/1.1\r\nContent-Length: 3\r\n\r\nabc".data
    = .done ⟨400, "Bad Request", "\x7b\"error\":\"invalid json payload\"\x7d".data⟩ [] := by
  decide

example : try_process_client (fun _ => true) []
    "PUT /v1/data/activities HTTP/1.1\r\nContent-Length: 5\r\n\r\nab".data
    = .needMore := by decide

example : (strstrIdx
    "PUT /v1/data/activities HTTP/1.1\r\nHost: localhost\r\nContent-Length: 17\r\nContent-Type: application/json\r\n\r\n".data
    CRLFCRLF).map (read_content_length
    "PUT /v1/data/activities HTTP/1.1\r\nHost: localhost\r\nContent-Length: 17\r\nContent-Type: application/json\r\n\r\n".data)
    = some 17 := by decide

/-- C2: a PUT for a vocabulary key whose fully buffered body the store's
JSON predicate rejects is answered 400 with the invalid-json body, and the
store is returned unchanged: the upsert is never executed. -/
theorem C2_invalid_json_rejected (jv : Bytes → Bool) (st : Store) (buf : Bytes)
    (he : Nat) (K : Bytes)
    (hterm : strstrIdx (cstr buf) CRLFCRLF = some he)
    (hline : parseRequestLine (cstr buf) = some ("PUT".data, "/v1/data/".data ++ K))
    (hkey : is_valid_key K = true)
    (hok : ¬ (read_content_length (cstr buf) he < 0 ∨
      (read_content_length (cstr buf) he).toNat > sub64 REQ_BUF_SIZE (he + 4)))
    (hge : ¬ ((read_content_length (cstr buf) he).toNat > sub64 buf.length (he + 4)))
    (hjson : jv (cstr ((buf.drop (he + 4)).take
      (read_content_length (cstr buf) he).toNat)) = false) :
    try_process_client jv st buf
      = .done ⟨400, "Bad Request", "\x7b\"error\":\"invalid json payload\"\x7d".data⟩ st := by
  rw [tpc_put_complete jv st buf he K hterm hline hkey hok hge]
  simp [handle_put_data, hjson]

/-- Witness for C2: PUT of the 3-byte body `abc` under a JSON predicate that
rejects it answers 400 on the unchanged empty store. -/
theorem C2_witness :
    try_process_client (fun b => b == "[]".data) []
      "PUT /v1/data/activities HTTP/1.1\r\nContent-Length: 3\r\n\r\nabc".data
      = .done ⟨400, "Bad Request", "\x7b\"error\":\"invalid json payload\"\x7d".data⟩ [] :=
  C2_invalid_json_rejected (fun b => b == "[]".data) []
    "PUT /v1/data/activities HTTP/1.1\r\nContent-Length: 3\r\n\r\nabc".data
    51 "activities".data (by decide) (by decide) (by decide) (by decide) (by decide)
    (by decide)

/-- C3: on a PUT for a vocabulary key, a negative Content-Length or one with
header length + content length above 64 KiB is answered 400 invalid content
length; otherwise, when fewer than content-length bytes are buffered after
the header terminator, the parser returns need-more-data and sends no
response. -/
theorem C3_content_length_checks (jv : Bytes → Bool) (st : Store) (buf : Bytes)
    (he : Nat) (K : Bytes)
    (hlen : buf.length < REQ_BUF_SIZE)
    (hterm : strstrIdx (cstr buf) CRLFCRLF = some he)
    (hline : parseRequestLine (cstr buf) = some ("PUT".data, "/v1/data/".data ++ K))
    (hkey : is_valid_key K = true) :
    (read_content_length (cstr buf) he < 0 ∨
        REQ_BUF_SIZE < (he + 4) + (read_content_length (cstr buf) he).toNat →
      try_process_client jv st buf
        = .done ⟨400, "Bad Request", "\x7b\"error\":\"invalid content length\"\x7d".data⟩ st) ∧
    (¬ (read_content_length (cstr buf) he < 0 ∨
        REQ_BUF_SIZE < (he + 4) + (read_content_length (cstr buf) he).toNat) →
      buf.length - (he + 4) < (read_content_length (cstr buf) he).toNat →
      try_process_client jv st buf = .needMore) := by
  have hb := strstrIdx_bound _ _ _ hterm
  have hc4 : he + 4 ≤ (cstr buf).length := by
    have h2 := hb.2
    simpa [CRLFCRLF] using h2
  have hcb : he + 4 ≤ buf.length := le_trans hc4 (cstr_length_le buf)
  have hR : buf.length < 65536 := by simpa [REQ_BUF_SIZE] using hlen
  have hs1 : sub64 REQ_BUF_SIZE (he + 4) = REQ_BUF_SIZE - (he + 4) :=
    sub64_eq _ _ (by simp only [REQ_BUF_SIZE]; omega) (by simp only [REQ_BUF_SIZE]; omega)
  have hs2 : sub64 buf.length (he + 4) = buf.length - (he + 4) :=
    sub64_eq _ _ hcb (by omega)
  constructor
  · intro hbad
    apply tpc_put_invalid_cl jv st buf he K hterm hline hkey
    rcases hbad with h | h
    · exact Or.inl h
    · refine Or.inr ?_
      rw [hs1]
      simp only [REQ_BUF_SIZE] at h ⊢
      omega
  · intro hok hlt
    apply tpc_put_incomplete jv st buf he K hterm hline hkey
    · rw [hs1]
      intro hx
      apply hok
      rcases hx with h | h
      · exact Or.inl h
      · refine Or.inr ?_
        simp only [REQ_BUF_SIZE] at h ⊢
        omega
    · rw [hs2]
      omega

/-- Witness for C3: an oversized Content-Length answers 400, and a
well-sized one with a short body suspends for more data. -/
theorem C3_witness :
    try_process_client (fun _ => true) []
      "PUT /v1/data/activities HTTP/1.1\r\nContent-Length: 99999\r\n\r\n".data
      = .done ⟨400, "Bad Request", "\x7b\"error\":\"invalid content length\"\x7d".data⟩ [] ∧
    try_process_client (fun _ => true) []
      "PUT /v1/data/activities HTTP/1.1\r\nContent-Length: 5\r\n\r\nab".data
      = .needMore :=
  ⟨(C3_content_length_checks (fun _ => true) []
      "PUT /v1/data/activities HTTP/1.1\r\nContent-Length: 99999\r\n\r\n".data
      55 "activities".data (by decide) (by decide) (by decide) (by decide)).1 (by decide),
   (C3_content_length_checks (fun _ => true) []
      "PUT /v1/data/activities HTTP/1.1\r\nContent-Length: 5\r\n\r\nab".data
      51 "activities".data (by decide) (by decide) (by decide) (by decide)).2 (by decide)
      (by decide)⟩

/-- C4: any request whose target is `/v1/data/` followed by a suffix outside
the vocabulary (including the empty suffix) is answered 404 unknown key with
the store untouched, for every method, in particular GET and PUT. -/
theorem C4_unknown_key (jv : Bytes → Bool) (st : Store) (buf : Bytes)
    (he : Nat) (m suffix : Bytes)
    (hterm : strstrIdx (cstr buf) CRLFCRLF = some he)
    (hline : parseRequestLine (cstr buf) = some (m, "/v1/data/".data ++ suffix))
    (hkey : is_valid_key suffix = false) :
    try_process_client jv st buf
      = .done ⟨404, "Not Found", "\x7b\"error\":\"unknown key\"\x7d".data⟩ st := by
  have hng : ¬ ("/v1/data/".data ++ suffix = "/health".data ∧ m = "GET".data) := by
    intro hx
    have h1 := congrArg List.length hx.1
    rw [List.length_append] at h1
    have h2 : ("/v1/data/".data).length = 9 := by decide
    have h3 : ("/health".data).length = 7 := by decide
    rw [h2, h3] at h1
    omega
  have hpre : "/v1/data/".data.isPrefixOf ("/v1/data/".data ++ suffix) = true :=
    List.isPrefixOf_iff_prefix.mpr (List.prefix_append _ _)
  have h9 : ("/v1/data/".data).length = 9 := by decide
  have hdrop : ("/v1/data/".data ++ suffix).drop 9 = suffix := by rw [← h9, List.drop_left]
  unfold try_process_client
  simp only [hterm]
  simp only [hline]
  rw [if_neg hng, if_neg (not_not_intro hpre), hdrop, if_pos (by simp [hkey])]

/-- Witness for C4: a GET of an unknown key and a PUT of the bare target
`/v1/data/` (empty suffix) both answer 404 unknown key. -/
theorem C4_witness :
    try_process_client (fun _ => true) []
      "GET /v1/data/unknown HTTP/1.1\r\n\r\n".data
      = .done ⟨404, "Not Found", "\x7b\"error\":\"unknown key\"\x7d".data⟩ [] ∧
    try_process_client (fun _ => true) []
      "PUT /v1/data/ HTTP/1.1\r\n\r\n".data
      = .done ⟨404, "Not Found", "\x7b\"error\":\"unknown key\"\x7d".data⟩ [] :=
  ⟨C4_unknown_key (fun _ => true) [] "GET /v1/data/unknown HTTP/1.1\r\n\r\n".data
      29 "GET".data "unknown".data (by decide) (by decide) (by decide),
   C4_unknown_key (fun _ => true) [] "PUT /v1/data/ HTTP/1.1\r\n\r\n".data
      22 "PUT".data [] (by decide) (by decide) (by decide)⟩

/-- C5 as stated is false: the parser can return 0 (need more data) even
though the four-byte terminator is present in the buffered bytes, namely
for a PUT whose headers are complete but whose body is not; so "returns 0
exactly when the terminator is absent" fails in the only-if direction. -/
theorem C5_counterexample :
    (strstrIdx "PUT /v1/data/activities HTTP/1.1\r\nContent-Length: 5\r\n\r\n".data
      CRLFCRLF).isSome = true ∧
    try_process_client (fun _ => true) []
      "PUT /v1/data/activities HTTP/1.1\r\nContent-Length: 5\r\n\r\n".data
      = .needMore := by
  decide

/-- C5 (amended): the parser null-terminates the buffer at the current
length and searches the resulting C string for the first occurrence of the
terminator; whenever the terminator is absent it returns 0, and the worker
then sends no response and keeps the connection with its buffer intact,
not reset. (The converse direction fails: an incomplete PUT body also
returns 0 with the terminator present.) -/
theorem C5_no_terminator_needs_more :
    (∀ (jv : Bytes → Bool) (st : Store) (buf : Bytes),
      strstrIdx (cstr buf) CRLFCRLF = none →
        try_process_client jv st buf = .needMore) ∧
    (∀ (jv : Bytes → Bool) (st : Store) (c : ConnSt) (chunk : Bytes),
      (recvAppend (growIfFull c) chunk).buf.length < REQ_BUF_SIZE →
      strstrIdx (cstr (recvAppend (growIfFull c) chunk).buf) CRLFCRLF = none →
        workerStep jv st c chunk = .cont (recvAppend (growIfFull c) chunk) st) := by
  constructor
  · intro jv st buf h
    unfold try_process_client
    simp only [h]
  · intro jv st c chunk hlen hnone
    unfold workerStep
    dsimp only
    rw [if_neg (by omega)]
    have h1 : try_process_client jv st (recvAppend (growIfFull c) chunk).buf
        = .needMore := by
      unfold try_process_client
      simp only [hnone]
    rw [h1]

/-- Witness for C5 at a terminator-free buffer. -/
theorem C5_witness :
    try_process_client (fun _ => true) [] "GET /health".data = .needMore ∧
    workerStep (fun _ => true) [] connInit "GET /health".data
      = .cont (recvAppend (growIfFull connInit) "GET /health".data) [] :=
  ⟨C5_no_terminator_needs_more.1 (fun _ => true) [] "GET /health".data (by decide),
   C5_no_terminator_needs_more.2 (fun _ => true) [] connInit "GET /health".data
     (by decide) (by decide)⟩

/-- C6 as stated is false: a request line whose first token has more than 7
characters is not answered 400 malformed request line; the scan truncates
the token at 7 characters, the remainder becomes the target, and routing
answers 404 not found instead. -/
theorem C6_counterexample :
    ((((cstr "OPTIONSX /health HTTP/1.1\r\n\r\n".data).dropWhile isSpaceC).takeWhile
        (fun c => ¬ isSpaceC c)).length = 8 ∧ 7 < 8) ∧
    try_process_client (fun _ => true) [] "OPTIONSX /health HTTP/1.1\r\n\r\n".data
      = .done ⟨404, "Not Found", "\x7b\"error\":\"not found\"\x7d".data⟩ [] ∧
    ¬ (try_process_client (fun _ => true) [] "OPTIONSX /health HTTP/1.1\r\n\r\n".data
      = .done ⟨400, "Bad Request", "\x7b\"error\":\"malformed request line\"\x7d".data⟩ []) := by
  decide

/-- Two responses with different status codes are different done results. -/
theorem done_ne_of_code (r x : Response) (s s2 : Store) (h : r.code ≠ x.code) :
    ParseResult.done r s ≠ ParseResult.done x s2 := by
  intro hx
  injection hx with h1 h2
  exact h (congrArg Response.code h1)

/-- Two responses with different bodies are different done results. -/
theorem done_ne_of_body (r x : Response) (s s2 : Store) (h : r.body ≠ x.body) :
    ParseResult.done r s ≠ ParseResult.done x s2 := by
  intro hx
  injection hx with h1 h2
  exact h (congrArg Response.body h1)

/-- The GET handler always answers 200, on both the row-present and the
row-absent branch. -/
theorem handle_get_data_code (st : Store) (k : Bytes) :
    (handle_get_data st k).code = 200 := by
  unfold handle_get_data
  cases lookupStore st k <;> rfl

/-- A request line that scans as two tokens is never answered 400 malformed
request line: every branch reached after a successful scan produces either
need-more-data or a response that differs from it in status code or body. -/
theorem tpc_two_tokens_not_malformed (jv : Bytes → Bool) (st : Store) (buf : Bytes)
    (m p : Bytes)
    (he : Nat)
    (hterm : strstrIdx (cstr buf) CRLFCRLF = some he)
    (hsome : parseRequestLine (cstr buf) = some (m, p)) :
    ∀ st2 : Store, try_process_client jv st buf
      ≠ .done ⟨400, "Bad Request", "\x7b\"error\":\"malformed request line\"\x7d".data⟩ st2 := by
  intro st2
  unfold try_process_client
  simp only [hterm]
  simp only [hsome]
  split_ifs <;>
    first
    | exact done_ne_of_code _ _ _ _ (by decide)
    | exact done_ne_of_body _ _ _ _ (by decide)
    | exact done_ne_of_code _ _ _ _ (by rw [handle_get_data_code]; decide)
    | (simp; done)
    | (intro hx
       injection hx with hr hs
       unfold handle_put_data at hr
       split_ifs at hr <;> (dsimp only at hr; exact absurd hr (by decide)))

/-- C6 (amended): once the terminator is present the request line is scanned
as up to two whitespace-separated tokens, the first truncated at 7 and the
second at 511 characters (an over-long token is not rejected; its remainder
feeds the next token); the response is 400 malformed request line exactly
when the scan finds fewer than two tokens, and any scanned method and
target obey the 7- and 511-character bounds. -/
theorem C6_request_line_scan (jv : Bytes → Bool) (st : Store) (buf : Bytes) (he : Nat)
    (hterm : strstrIdx (cstr buf) CRLFCRLF = some he) :
    (try_process_client jv st buf
        = .done ⟨400, "Bad Request", "\x7b\"error\":\"malformed request line\"\x7d".data⟩ st
      ↔ parseRequestLine (cstr buf) = none) ∧
    (∀ m p, parseRequestLine (cstr buf) = some (m, p) →
      m.length ≤ 7 ∧ p.length ≤ 511) := by
  constructor
  · constructor
    · intro heq
      cases hp : parseRequestLine (cstr buf) with
      | none => rfl
      | some mp =>
        obtain ⟨m, p⟩ := mp
        exact absurd heq (tpc_two_tokens_not_malformed jv st buf m p he hterm hp st)
    · intro hnone
      unfold try_process_client
      simp only [hterm]
      simp only [hnone]
  · intro m p hsome
    unfold parseRequestLine at hsome
    cases h1 : scanTok 7 (cstr buf) with
    | none => rw [h1] at hsome; simp at hsome
    | some mr =>
      obtain ⟨m1, rest⟩ := mr
      rw [h1] at hsome
      dsimp only at hsome
      cases h2 : scanTok 511 rest with
      | none => rw [h2] at hsome; simp at hsome
      | some pr2 =>
        obtain ⟨p1, r2⟩ := pr2
        rw [h2] at hsome
        simp only [Option.some.injEq, Prod.mk.injEq] at hsome
        obtain ⟨hm, hp⟩ := hsome
        subst hm
        subst hp
        exact ⟨scanTok_length_le _ _ _ _ h1, scanTok_length_le _ _ _ _ h2⟩

/-- Witness for C6: a one-token request line answers 400 malformed, and a
scanned GET line obeys the token bounds. -/
theorem C6_witness :
    try_process_client (fun _ => true) [] "GET\r\n\r\n".data
      = .done ⟨400, "Bad Request", "\x7b\"error\":\"malformed request line\"\x7d".data⟩ [] ∧
    ("GET".data.length ≤ 7 ∧ "/health".data.length ≤ 511) :=
  ⟨(C6_request_line_scan (fun _ => true) [] "GET\r\n\r\n".data 3 (by decide)).1.mpr
     (by decide),
   (C6_request_line_scan (fun _ => true) [] "GET /health HTTP/1.1\r\n\r\n".data 20
     (by decide)).2 "GET".data "/health".data (by decide)⟩

/-- C10: when a read brings the buffered length to the 64 KiB ceiling the
worker answers 413 and closes before invoking the parser, whatever the
buffer holds and whatever the store predicate would say; and a PUT whose
header length plus Content-Length equals exactly 64 KiB, which the
Content-Length check itself accepts, always leaves the parser asking for
more data while the length stays below the ceiling, so it can never reach
the upsert. -/
theorem C10_oversize_put_cannot_complete :
    (∀ (jv : Bytes → Bool) (st : Store) (c : ConnSt) (chunk : Bytes),
      (recvAppend (growIfFull c) chunk).buf.length ≥ REQ_BUF_SIZE →
        workerStep jv st c chunk = .closed (some resp413) st) ∧
    (∀ (jv : Bytes → Bool) (st : Store) (buf : Bytes) (he : Nat) (K : Bytes),
      buf.length < REQ_BUF_SIZE →
      strstrIdx (cstr buf) CRLFCRLF = some he →
      parseRequestLine (cstr buf) = some ("PUT".data, "/v1/data/".data ++ K) →
      is_valid_key K = true →
      read_content_length (cstr buf) he = (REQ_BUF_SIZE : Int) - ((he : Int) + 4) →
        try_process_client jv st buf = .needMore) := by
  constructor
  · intro jv st c chunk hge
    unfold workerStep
    dsimp only
    rw [if_pos hge]
  · intro jv st buf he K hlen hterm hline hkey hcl
    have hb := strstrIdx_bound _ _ _ hterm
    have hc4 : he + 4 ≤ (cstr buf).length := by
      have h2 := hb.2
      simpa [CRLFCRLF] using h2
    have hcb : he + 4 ≤ buf.length := le_trans hc4 (cstr_length_le buf)
    have hR : buf.length < 65536 := by simpa [REQ_BUF_SIZE] using hlen
    have hs1 : sub64 REQ_BUF_SIZE (he + 4) = REQ_BUF_SIZE - (he + 4) :=
      sub64_eq _ _ (by simp only [REQ_BUF_SIZE]; omega) (by simp only [REQ_BUF_SIZE]; omega)
    have hs2 : sub64 buf.length (he + 4) = buf.length - (he + 4) :=
      sub64_eq _ _ hcb (by omega)
    have hok : ¬ (read_content_length (cstr buf) he < 0 ∨
        (read_content_length (cstr buf) he).toNat > sub64 REQ_BUF_SIZE (he + 4)) := by
      rw [hcl, hs1]
      clear hs1 hs2 hb
      simp only [REQ_BUF_SIZE]
      intro hx
      rcases hx with h | h
      · omega
      · omega
    have hlt : (read_content_length (cstr buf) he).toNat > sub64 buf.length (he + 4) := by
      rw [hcl, hs2]
      clear hs1 hs2 hb hok
      simp only [REQ_BUF_SIZE]
      omega
    exact tpc_put_incomplete jv st buf he K hterm hline hkey hok hlt

/-- Length of the buffer after an append-from-recv step. -/
theorem recvAppend_length (c : ConnSt) (chunk : Bytes) :
    (recvAppend c chunk).buf.length
      = c.buf.length + min (c.cap - c.buf.length) chunk.length := by
  unfold recvAppend
  rw [List.length_append, List.length_take]

/-- Witness for C10: a read filling the buffer to 64 KiB answers 413 on an
arbitrary store, and the headers of a PUT announcing a body that would end
exactly at 64 KiB leave the parser asking for more data. -/
theorem C10_witness :
    workerStep (fun _ => true) [] ⟨List.replicate 65535 'a', 65536, 65537⟩ ['a']
      = .closed (some resp413) [] ∧
    try_process_client (fun _ => true) []
      "PUT /v1/data/activities HTTP/1.1\r\nContent-Length: 65477\r\n\r\n".data
      = .needMore :=
  ⟨C10_oversize_put_cannot_complete.1 (fun _ => true) []
      ⟨List.replicate 65535 'a', 65536, 65537⟩ ['a']
      (by
        have e0 : growIfFull ⟨List.replicate 65535 'a', 65536, 65537⟩
            = ⟨List.replicate 65535 'a', 65536, 65537⟩ := by
          unfold growIfFull REQ_BUF_SIZE
          rw [if_neg (fun hx => absurd hx.2 (by decide))]
        have hbuf : (⟨List.replicate 65535 'a', 65536, 65537⟩ : ConnSt).buf
            = List.replicate 65535 'a' := rfl
        have hcap : (⟨List.replicate 65535 'a', 65536, 65537⟩ : ConnSt).cap = 65536 := rfl
        rw [e0, recvAppend_length, hbuf, hcap, List.length_replicate, REQ_BUF_SIZE]
        decide),
   C10_oversize_put_cannot_complete.2 (fun _ => true) []
      "PUT /v1/data/activities HTTP/1.1\r\nContent-Length: 65477\r\n\r\n".data
      55 "activities".data (by decide) (by decide) (by decide) (by decide) (by decide)⟩
